import Mathlib

/-! Verification development for the counterfactual explainer of
`alibi/explainers/counterfactual/counterfactual.py` (Wachter et al. style
counterfactual search).  The Python module is embedded shallowly: numpy
arrays of floats are modelled as lists of exact rationals, the stateful
TensorFlow variables are modelled by explicit state passing, and fallible
code paths (assertion failures, raised `ValueError` / `IndexError`) are
modelled with `Option`. -/

set_option maxRecDepth 8000

/-! ### Distance module: `cityblock_batch` -/

/-- A numpy array of rationals: a shape together with its row-major data. -/
structure NDArray where
  shape : List ℕ
  data : List ℚ
deriving DecidableEq

/-- Sum of absolute componentwise differences of two rows: the reduction
`np.abs(X - y).sum(axis=...)` applied to one batch row against the single
broadcast row `y`. -/
def rowDist (a b : List ℚ) : ℚ :=
  ((a.zip b).map (fun p => |p.1 - p.2|)).sum

/-- Split row-major data into `n` consecutive rows of `k` entries each
(the decomposition of a batch array into its batch rows). -/
def chunkRows : ℕ → ℕ → List ℚ → List (List ℚ)
  | 0, _, _ => []
  | n + 1, k, xs => xs.take k :: chunkRows n k (xs.drop k)

/-- Embedding of `cityblock_batch(X, y)`: L1 distance from every batch row of
`X` to the single array `y`.  The source asserts `y.shape[0] == 1` when the
ranks agree and `X.shape[1:] == y.shape` otherwise; a failed assertion is
modelled as `none`.  Numpy broadcasting is modelled only for exactly matching
non-batch dims (the only case the source exercises).  The `(N, 1)` reshape of
the result is modelled as a flat list of the `N` per-row scalars. -/
def cityblock_batch (X y : NDArray) : Option (List ℚ) :=
  let rows := chunkRows X.shape.headI X.shape.tail.prod X.data
  if X.shape.length = y.shape.length then
    if y.shape.headI = 1 ∧ X.shape.tail = y.shape.tail then
      some (rows.map (fun row => rowDist row y.data))
    else none
  else
    if X.shape.tail = y.shape then
      some (rows.map (fun row => rowDist row y.data))
    else none

lemma chunkRows_length (n k : ℕ) : ∀ xs : List ℚ, (chunkRows n k xs).length = n := by
  induction n with
  | zero => intro xs; rfl
  | succ m ih => intro xs; simp [chunkRows, ih]

lemma rowDist_nonneg (a b : List ℚ) : 0 ≤ rowDist a b := by
  refine List.sum_nonneg ?_
  intro x hx
  rcases List.mem_map.mp hx with ⟨p, _, rfl⟩
  exact abs_nonneg _

lemma rowDist_take (a : List ℚ) : ∀ k, rowDist (a.take k) a = 0 := by
  induction a with
  | nil => intro k; cases k <;> simp [rowDist]
  | cons h t ih =>
      intro k
      cases k with
      | zero => simp [rowDist]
      | succ m =>
          have h0 := ih m
          unfold rowDist at h0 ⊢
          simp [List.take_succ_cons, List.zip_cons_cons, h0]

/-- C10: for every pair of arrays with compatible shapes (same rank with `y`
of batch size 1, or `X` a batch whose row shape equals `y`'s shape), the
batched L1 distance returns exactly one non-negative scalar per batch row of
`X`; and the distance of a batch-1 array to itself is all zeros. -/
theorem cityblock_batch_nonneg_per_row_and_self_zero (X y : NDArray)
    (hX : X.data.length = X.shape.prod)
    (hy : y.data.length = y.shape.prod)
    (hcompat : (X.shape.length = y.shape.length ∧ y.shape.headI = 1 ∧
                  X.shape.tail = y.shape.tail)
        ∨ (¬ X.shape.length = y.shape.length ∧ X.shape.tail = y.shape)) :
    (∃ ds, cityblock_batch X y = some ds ∧ ds.length = X.shape.headI ∧
       ∀ d ∈ ds, 0 ≤ d)
    ∧ (X.shape.headI = 1 → cityblock_batch X X = some [0]) := by
  constructor
  · have hval : cityblock_batch X y
        = some ((chunkRows X.shape.headI X.shape.tail.prod X.data).map
            (fun row => rowDist row y.data)) := by
      rcases hcompat with ⟨h1, h2, h3⟩ | ⟨h1, h3⟩
      · simp [cityblock_batch, h1, h2, h3]
      · simp [cityblock_batch, h1, h3]
    refine ⟨_, hval, ?_, ?_⟩
    · simp [List.length_map, chunkRows_length]
    · intro d hd
      rcases List.mem_map.mp hd with ⟨row, _, rfl⟩
      exact rowDist_nonneg _ _
  · intro h1
    have hval : cityblock_batch X X
        = some ((chunkRows X.shape.headI X.shape.tail.prod X.data).map
            (fun row => rowDist row X.data)) := by
      simp [cityblock_batch, h1]
    rw [hval, h1]
    have h2 : chunkRows 1 X.shape.tail.prod X.data
        = [X.data.take X.shape.tail.prod] := rfl
    simp [h2, rowDist_take]

/-- Witness for C10: concrete compatible arrays, with `X` of batch size 1 so
that both conjuncts are exercised. -/
theorem cityblock_batch_nonneg_witness :
    ((∃ ds, cityblock_batch ⟨[1, 2], [3, 5]⟩ ⟨[1, 2], [0, 1]⟩ = some ds ∧
        ds.length = (⟨[1, 2], [3, 5]⟩ : NDArray).shape.headI ∧ ∀ d ∈ ds, 0 ≤ d)
      ∧ ((⟨[1, 2], [3, 5]⟩ : NDArray).shape.headI = 1 →
          cityblock_batch ⟨[1, 2], [3, 5]⟩ ⟨[1, 2], [3, 5]⟩ = some [0])) :=
  cityblock_batch_nonneg_per_row_and_self_zero ⟨[1, 2], [3, 5]⟩ ⟨[1, 2], [0, 1]⟩
    (by decide) (by decide) (Or.inl (by decide))

/-! ### Target-Function Selector: `_define_func`

The Python `target_class` argument has type `Union[str, int]`; it is modelled
as `String ⊕ ℤ`.  The class-specific prediction functions built by
`_define_func` run `predict_fn(X)[:, target_class]`; indexing the columns of
the probability array with a string raises `IndexError` at call time, and an
out-of-range integer likewise — both are modelled as `none` (negative Python
indices, which no caller and no claim exercises, are also mapped to `none`). -/

/-- Column selection `probas[:, tc]` on a batch of probability rows. -/
def colSelect (probas : List (List ℚ)) (tc : String ⊕ ℤ) : Option (List ℚ) :=
  match tc with
  | Sum.inl _ => none
  | Sum.inr k =>
      if 0 ≤ k ∧ k < (probas.headI.length : ℤ) then
        some (probas.map (fun row => row.getD k.toNat 0))
      else none

/-- Stable insertion of index `i` into an index list sorted by decreasing
value of `v`: `i` goes before the first index holding a strictly smaller
value, so earlier indices win ties. -/
def insertDesc (v : List ℚ) (i : ℕ) : List ℕ → List ℕ
  | [] => [i]
  | j :: rest =>
      if v.getD j 0 < v.getD i 0 then i :: j :: rest else j :: insertDesc v i rest

/-- Embedding of `np.argsort(-probas)` on one probability row: class indices
in decreasing order of probability (ties by ascending index). -/
def argsortDesc (v : List ℚ) : List ℕ :=
  (List.range v.length).foldl (fun acc i => insertDesc v i acc) []

/-- Embedding of `_define_func(predict_fn, pred_class, target_class)`.
For the `'other'` policy the source returns a closure that re-runs the
argsort-based class selection on every call, together with the *string*
`'other'` (the assignments to `target_class` inside the closure are local to
it); for `'same'` and integer policies it returns the fixed-column function
and the concrete class index. -/
def _define_func {α : Type} (predict_fn : α → List (List ℚ)) (pred_class : ℕ)
    (target_class : String ⊕ ℤ) : (α → Option (List ℚ)) × (String ⊕ ℤ) :=
  if target_class = Sum.inl "other" then
    (fun X =>
      let probas := predict_fn X
      let sorted := argsortDesc probas.headI
      let tgt : ℕ :=
        if sorted.getD 0 0 = pred_class then sorted.getD 1 0 else sorted.getD 0 0
      colSelect (predict_fn X) (Sum.inr (tgt : ℤ)),
     Sum.inl "other")
  else
    let tc := if target_class = Sum.inl "same" then Sum.inr (pred_class : ℤ)
              else target_class
    (fun X => colSelect (predict_fn X) tc, tc)

/-- The per-call class resolution performed inside the `'other'` closure:
rank the classes of the prediction at `X` by decreasing probability and take
the top class, or the second-ranked one if the top class is `pred_class`. -/
def resolveOther {α : Type} (predict_fn : α → List (List ℚ)) (pred_class : ℕ)
    (X : α) : ℕ :=
  let sorted := argsortDesc (predict_fn X).headI
  if sorted.getD 0 0 = pred_class then sorted.getD 1 0 else sorted.getD 0 0

/-- A two-point family of predictions used to separate per-call resolution
from construction-time resolution. -/
def pfBool : Bool → List (List ℚ) := fun b =>
  if b then [[6/10, 3/10, 1/10]] else [[2/10, 1/10, 7/10]]

/-- Counterexample to C2: with policy `'other'` and `pred_class = 0`,
`_define_func` returns the string `'other'` as second component (not a
concrete resolved class index), and the returned scalar function resolves a
*different* class on each call: at `true` (probabilities `[.6, .3, .1]`) it
returns class 1's column `[3/10]`, while at `false` (probabilities
`[.2, .1, .7]`) it returns class 2's column `[7/10]` — not `[1/10]`, which a
class index fixed at construction (from the `true` batch) would give. -/
theorem define_func_other_counterexample :
    (_define_func pfBool 0 (Sum.inl "other")).2 = Sum.inl "other"
    ∧ (_define_func pfBool 0 (Sum.inl "other")).1 true = some [3/10]
    ∧ (_define_func pfBool 0 (Sum.inl "other")).1 false = some [7/10]
    ∧ ¬ ((_define_func pfBool 0 (Sum.inl "other")).1 false = some [1/10]) := by
  refine ⟨by decide, ?_, ?_, ?_⟩ <;> with_unfolding_all decide

/-- C2 (amended): with policy `'other'` the selector returns the policy
string `'other'` as its second component rather than a resolved class index,
and the returned scalar function re-resolves the target class on every call
from the prediction on that call's input. -/
theorem define_func_other_reresolves {α : Type} (predict_fn : α → List (List ℚ))
    (pred_class : ℕ) :
    (_define_func predict_fn pred_class (Sum.inl "other")).2 = Sum.inl "other"
    ∧ ∀ X, (_define_func predict_fn pred_class (Sum.inl "other")).1 X
        = colSelect (predict_fn X)
            (Sum.inr (resolveOther predict_fn pred_class X)) := by
  constructor
  · simp [_define_func]
  · intro X
    simp [_define_func, resolveOther]

/-- Constant prediction with probabilities `[0.1, 0.7, 0.2]`. -/
def pfA : Unit → List (List ℚ) := fun _ => [[1/10, 7/10, 2/10]]

/-- Constant prediction with probabilities `[0.6, 0.3, 0.1]`. -/
def pfB : Unit → List (List ℚ) := fun _ => [[6/10, 3/10, 1/10]]

/-- Counterexample to C3: with probabilities `[0.1, 0.7, 0.2]` and
`predicted_class = 1`, the class the `'other'` policy resolves is 2 (the
second-ranked class, probability `0.2`), not 0 as the claim states; the
scalar function accordingly returns class 2's probability column. -/
theorem resolve_other_first_example_counterexample :
    resolveOther pfA 1 () = 2
    ∧ ¬ (resolveOther pfA 1 () = 0)
    ∧ (_define_func pfA 1 (Sum.inl "other")).1 () = some [2/10] := by
  refine ⟨?_, ?_, ?_⟩ <;> with_unfolding_all decide

/-- C3 (amended): with probabilities `[0.1, 0.7, 0.2]` and
`predicted_class = 1` the resolved target class is 2, and with probabilities
`[0.6, 0.3, 0.1]` and `predicted_class = 0` it is 1. -/
theorem resolve_other_examples :
    resolveOther pfA 1 () = 2
    ∧ resolveOther pfB 0 () = 1
    ∧ (_define_func pfA 1 (Sum.inl "other")).1 () = some [2/10]
    ∧ (_define_func pfB 0 (Sum.inl "other")).1 () = some [3/10] := by
  refine ⟨?_, ?_, ?_, ?_⟩ <;> with_unfolding_all decide

/-- C8: for every string policy that is neither `'same'` nor `'other'`, the
scalar function built by `_define_func` fails on every use (the string ends
up as the column index of `predict_fn(X)[:, target_class]`, which raises at
call time), so no usable scalar function is produced. -/
theorem define_func_invalid_policy_fails {α : Type} (s : String)
    (h1 : ¬ s = "same") (h2 : ¬ s = "other")
    (predict_fn : α → List (List ℚ)) (pred_class : ℕ) (X : α) :
    (_define_func predict_fn pred_class (Sum.inl s)).1 X = none := by
  have h2' : (Sum.inl s : String ⊕ ℤ) ≠ Sum.inl "other" := by simpa using h2
  have h1' : (Sum.inl s : String ⊕ ℤ) ≠ Sum.inl "same" := by simpa using h1
  simp [_define_func, h1', h2', colSelect]

/-- Witness for C8 at the concrete invalid policy string `'foo'`. -/
theorem define_func_invalid_policy_witness :
    (_define_func (fun _ : Unit => [[(1 : ℚ), 0]]) 0 (Sum.inl "foo")).1 () = none :=
  define_func_invalid_policy_fails "foo" (by decide) (by decide)
    (fun _ : Unit => [[(1 : ℚ), 0]]) 0 ()

/-! ### Numerical Gradient Engine and Loss & Gradient Assembler -/

/-- The finite-difference step the wrapped library routine chooses on its own
when it is handed `epsilon=None` (in the library it is a data-dependent
machine-precision step; it is a fixed positive step here — the claims depend
only on it not being the caller's epsilon array). -/
def defaultEps : ℚ := mkRat 1 10

/-- Embedding of `num_grad(func, X, epsilon)`: centered symmetric-difference
gradient of a scalar function, one scalar step size for all coordinates;
`none` means the caller passed `epsilon=None` and the library default step is
used. -/
def num_grad (f : List ℚ → ℚ) (X : List ℚ) (epsilon : Option ℚ) : List ℚ :=
  let e := epsilon.getD defaultEps
  (List.range X.length).map (fun i =>
    (f (X.set i (X.getD i 0 + e)) - f (X.set i (X.getD i 0 - e))) / (2 * e))

/-- Embedding of the `epsilons` handling at the top of `get_wachter_grads`:
`eps = epsilons if isinstance(epsilons, float) else None`.  The Python value
is `None` or a float or a feature-wise array, modelled as
`Option (ℚ ⊕ List ℚ)`; only a plain float survives. -/
def chooseEps (epsilons : Option (ℚ ⊕ List ℚ)) : Option ℚ :=
  match epsilons with
  | some (Sum.inl e) => some e
  | _ => none

/-- Embedding of `get_wachter_grads`: loss and gradient of the composite
Wachter loss at the candidate `X_current`, combining the numerical gradient
of the class-probability function and of the distance function; an unknown
`method` raises `ValueError`, modelled as `none`. -/
def get_wachter_grads (X_current : List ℚ) (predict_class_fn : List ℚ → ℚ)
    (distance_fn : List ℚ → List ℚ → ℚ) (X_test : List ℚ)
    (target_proba lam : ℚ) (epsilons : Option (ℚ ⊕ List ℚ)) (method : String) :
    Option (ℚ × List ℚ) :=
  let eps := chooseEps epsilons
  let pred := predict_class_fn X_current
  let prediction_grad := num_grad predict_class_fn X_current eps
  let distance_grad := num_grad (fun z => distance_fn z X_test) X_current eps
  if method = "wachter" then
    some (lam * (pred - target_proba) ^ 2 + distance_fn X_current X_test,
      (prediction_grad.zip distance_grad).map
        (fun p => 2 * lam * (pred - target_proba) * p.1 + p.2))
  else if method = "wachter_rev" then
    some ((pred - target_proba) ^ 2 + lam * distance_fn X_current X_test,
      (prediction_grad.zip distance_grad).map
        (fun p => 2 * (pred - target_proba) * p.1 + lam * p.2))
  else if method = "adiabatic" then
    some (lam * (pred - target_proba) ^ 2 + (1 - lam) * distance_fn X_current X_test,
      (prediction_grad.zip distance_grad).map
        (fun p => 2 * lam * (pred - target_proba) * p.1 + (1 - lam) * p.2))
  else none

/-- Feature-wise centered finite differencing as the specification describes
the per-feature epsilon configuration (refinement comparison definition: this
follows the spec's words, not the source, and is compared against the
source's behaviour). -/
def num_grad_featurewise (f : List ℚ → ℚ) (X : List ℚ) (es : List ℚ) : List ℚ :=
  (List.range X.length).map (fun i =>
    let e := es.getD i 0
    (f (X.set i (X.getD i 0 + e)) - f (X.set i (X.getD i 0 - e))) / (2 * e))

/-- C9: a per-feature epsilon array is silently discarded by
`get_wachter_grads` — the computation coincides with passing `epsilons=None`
(so the library's own default step is used, `chooseEps` maps the array to
`none`), and at `f(x) = x^3`, `x = [1]` the resulting default-step gradient
`[3 + 1/100]` differs from the gradient `[7]` that the configured
feature-wise steps `[2]` would give. -/
theorem get_wachter_grads_ignores_epsilon_array :
    (∀ (Xc : List ℚ) (pcf : List ℚ → ℚ) (dfn : List ℚ → List ℚ → ℚ)
       (Xt : List ℚ) (tp lam : ℚ) (es : List ℚ) (m : String),
        get_wachter_grads Xc pcf dfn Xt tp lam (some (Sum.inr es)) m
          = get_wachter_grads Xc pcf dfn Xt tp lam none m)
    ∧ num_grad (fun x => x.headI ^ 3) [1] (chooseEps (some (Sum.inr [2])))
        = [3 + 1/100]
    ∧ num_grad_featurewise (fun x => x.headI ^ 3) [1] [2] = [7]
    ∧ ¬ ((3 + 1/100 : ℚ) = 7) := by
  refine ⟨fun _ _ _ _ _ _ _ _ => rfl, ?_, ?_, ?_⟩ <;> with_unfolding_all decide

/-! ### Search Controller: `CounterFactual`

The class keeps its working numeric state in TensorFlow graph variables that
live in the session across `explain` calls: the candidate variable `cf`
(created with the default variable initializer and, per the source's
`TODO initialize when explain is called`, never assigned `X_init`) and the
Adam optimizer's internal state.  That persistent state is modelled by
`TFState`, threaded explicitly through the search; the optimizer itself is
an opaque first-order capability `optStep : state → gradient → current →
(updated, state)`, as the specification treats it. -/

/-- The session state held in the `cf_search` variable scope: the value of
the candidate variable `cf` and the optimizer's internal state. -/
structure TFState (σ : Type) where
  cf : List ℚ
  opt : σ
deriving DecidableEq

/-- The dictionary built by `_minimize_wachter_loss` and returned from
`explain`: final candidate, per-iteration history lists, success flag. -/
structure CFResult where
  X_cf : List ℚ
  losses : List ℚ
  grads : List (List ℚ)
  dists : List ℚ
  Xs : List (List ℚ)
  lambdas : List ℚ
  prob_cond : List Bool
  prob : List ℚ
  classes : List ℕ
  success : Bool
deriving DecidableEq

/-- Constructor configuration of `CounterFactual` (the fields the search
uses), plus the opaque optimizer capability. -/
structure CFParams (σ : Type) where
  predict_fn : List ℚ → List (List ℚ)
  distance_fn : List ℚ → List ℚ → ℚ
  target_proba : ℚ
  target_class : String ⊕ ℤ
  max_iter : ℕ
  lam_init : ℚ
  lam_step : ℚ
  max_lam_steps : ℕ
  tol : ℚ
  feature_range : ℚ × ℚ
  epsilons : Option (ℚ ⊕ List ℚ)
  method : String
  init : String
  optStep : σ → List ℚ → List ℚ → List ℚ × σ

/-- Mutable state of one `_minimize_wachter_loss` run: the accumulating
result dictionary, the current lambda, the numpy-side `X_current`, and the
session state. -/
structure LoopState (σ : Type) where
  res : CFResult
  lam : ℚ
  X_current : List ℚ
  tf : TFState σ

/-- The `constraint=lambda x: tf.clip_by_value(x, feature_range[0],
feature_range[1])` applied to the `cf` variable on every assignment. -/
def clip (lo hi : ℚ) (xs : List ℚ) : List ℚ :=
  xs.map (fun v => min hi (max lo v))

/-- Embedding of `probas.argmax()`: index of the first maximal entry of the
flattened array. -/
def argmaxIdx (l : List ℚ) : ℕ :=
  (l.foldl (fun acc v =>
    if acc.2.2 < v then (acc.2.1, acc.2.1 + 1, v) else (acc.1, acc.2.1 + 1, acc.2.2))
    ((0 : ℕ), (0 : ℕ), l.headI)).1

/-- Embedding of `probas.max()`: maximal entry of the flattened array. -/
def maxVal (l : List ℚ) : ℚ := l.foldl max l.headI

/-- Embedding of `_prob_condition(X_current)`:
`abs(predict_class_fn(X_current) - target_proba) <= tol`. -/
def _prob_condition (predict_class_fn : List ℚ → ℚ) (target_proba tol : ℚ)
    (X_current : List ℚ) : Bool :=
  decide (|predict_class_fn X_current - target_proba| ≤ tol)

/-- One iteration of the inner gradient-descent loop: compute loss and
gradient at `X_current` via `get_wachter_grads`, run `apply_grad` (which
updates the *session variable* `cf` — not `X_current` — and applies the
feature-range clip constraint), read the variable back into `X_current`,
and append one entry to every history list. -/
def innerStep {σ : Type} (p : CFParams σ) (predict_class_fn : List ℚ → ℚ)
    (X : List ℚ) (s : LoopState σ) : Option (LoopState σ) :=
  (get_wachter_grads s.X_current predict_class_fn p.distance_fn X
      p.target_proba s.lam p.epsilons p.method).map (fun lg =>
    let stepped := p.optStep s.tf.opt lg.2 s.tf.cf
    let Xc := clip p.feature_range.1 p.feature_range.2 stepped.1
    let probas := p.predict_fn Xc
    { res := { s.res with
        Xs := s.res.Xs ++ [Xc],
        losses := s.res.losses ++ [lg.1],
        grads := s.res.grads ++ [lg.2],
        dists := s.res.dists ++ [p.distance_fn X Xc],
        lambdas := s.res.lambdas ++ [s.lam],
        prob_cond := s.res.prob_cond ++
          [_prob_condition predict_class_fn p.target_proba p.tol Xc],
        prob := s.res.prob ++ [maxVal (p.predict_fn Xc).flatten],
        classes := s.res.classes ++ [argmaxIdx probas.flatten] },
      lam := s.lam,
      X_current := Xc,
      tf := ⟨Xc, stepped.2⟩ })

/-- The inner loop `for i in range(self.max_iter)`. -/
def innerLoop {σ : Type} (p : CFParams σ) (predict_class_fn : List ℚ → ℚ)
    (X : List ℚ) : ℕ → LoopState σ → Option (LoopState σ)
  | 0, s => some s
  | n + 1, s => (innerStep p predict_class_fn X s).bind
      (innerLoop p predict_class_fn X n)

/-- The outer loop `for _ in range(self.max_lam_steps)`, with the source's
in-loop early return `if lam_steps == self.max_lam_steps: return return_dict`
(which leaves `success` as it stands, i.e. `False`), the post-inner-loop
`return_dict['X_cf'] = X_current`, the lambda rescaling
`lam *= self.lam_step`, and the final unconditional
`return_dict['success'] = True`.  The first argument counts the remaining
loop iterations, the second is the source's `lam_steps` counter. -/
def outerLoop {σ : Type} (p : CFParams σ) (predict_class_fn : List ℚ → ℚ)
    (X : List ℚ) : ℕ → ℕ → LoopState σ → Option (CFResult × TFState σ)
  | 0, _, s => some ({ s.res with success := true }, s.tf)
  | r + 1, lam_steps, s =>
      if lam_steps = p.max_lam_steps then some (s.res, s.tf)
      else
        (innerLoop p predict_class_fn X p.max_iter s).bind (fun s1 =>
          outerLoop p predict_class_fn X r (lam_steps + 1)
            { s1 with res := { s1.res with X_cf := s1.X_current },
                      lam := s1.lam * p.lam_step })

/-- Embedding of `_minimize_wachter_loss(X, X_init)`: build the result
dictionary with `X_cf = X_init` and `success = False`, set
`lam = self.lam_init`, `X_current = X_init`, and run the nested loops.
The session state `tf0` is an input and an output: the source reads and
writes the session variables, which survive the call. -/
def _minimize_wachter_loss {σ : Type} (p : CFParams σ)
    (predict_class_fn : List ℚ → ℚ) (X X_init : List ℚ) (tf0 : TFState σ) :
    Option (CFResult × TFState σ) :=
  outerLoop p predict_class_fn X p.max_lam_steps 0
    { res := { X_cf := X_init, losses := [], grads := [], dists := [], Xs := [],
               lambdas := [], prob_cond := [], prob := [], classes := [],
               success := false },
      lam := p.lam_init, X_current := X_init, tf := tf0 }

/-- Embedding of `_initialize(X)` (source name `_initialize`): `'identity'`
copies the instance, `'random'` draws `np.random.rand(*self.data_shape)` —
the draw is passed in as the oracle value `rand` — and any other strategy
raises `ValueError`, modelled as `none`. -/
def initializeCandidate {σ : Type} (p : CFParams σ) (rand : List ℚ)
    (X : List ℚ) : Option (List ℚ) :=
  if p.init = "identity" then some X
  else if p.init = "random" then some rand
  else none

/-- Embedding of `explain(X)`: predict on `X`, take the predicted class,
build the class-specific scalar prediction function via `_define_func`
(its batch-of-one column output read back as a scalar), initialize the
candidate, and minimize.  The Python method returns only the dictionary;
the session state is returned alongside because it persists in `self.sess`
across calls. -/
def explain {σ : Type} (p : CFParams σ) (rand : List ℚ) (X : List ℚ)
    (tf0 : TFState σ) : Option (CFResult × TFState σ) :=
  let probas := p.predict_fn X
  let pred_class := argmaxIdx probas.flatten
  let fc := _define_func p.predict_fn pred_class p.target_class
  let predict_class_fn : List ℚ → ℚ := fun x => ((fc.1 x).getD []).headI
  (initializeCandidate p rand X).bind (fun X_init =>
    _minimize_wachter_loss p predict_class_fn X X_init tf0)

/-! ### Structural facts about the search loops -/

lemma outerLoop_success_invariant {σ : Type} (p : CFParams σ)
    (predict_class_fn : List ℚ → ℚ) (X : List ℚ) :
    ∀ (r lam_steps : ℕ) (s : LoopState σ) (res : CFResult) (tfs : TFState σ),
      lam_steps + r = p.max_lam_steps →
      outerLoop p predict_class_fn X r lam_steps s = some (res, tfs) →
      res.success = true := by
  intro r
  induction r with
  | zero =>
      intro lam_steps s res tfs _ h
      simp only [outerLoop, Option.some.injEq, Prod.mk.injEq] at h
      rw [← h.1]
  | succ k ih =>
      intro lam_steps s res tfs hinv h
      rw [outerLoop] at h
      rw [if_neg (by omega)] at h
      rcases Option.bind_eq_some.mp h with ⟨s1, _, h2⟩
      exact ih (lam_steps + 1) _ res tfs (by omega) h2

/-- C5: whenever `_minimize_wachter_loss` returns (i.e. the outer loop has
completed all `max_lam_steps` configured steps), the returned result has
`success = true` — for every configuration, every instance, every session
state and every optimizer, hence in particular independently of the recorded
tolerance flags. -/
theorem minimize_success_always_true {σ : Type} (p : CFParams σ)
    (predict_class_fn : List ℚ → ℚ) (X X_init : List ℚ) (tf0 : TFState σ)
    (res : CFResult) (tfs : TFState σ)
    (h : _minimize_wachter_loss p predict_class_fn X X_init tf0 = some (res, tfs)) :
    res.success = true :=
  outerLoop_success_invariant p predict_class_fn X p.max_lam_steps 0 _ res tfs
    (by omega) h

/-- All eight per-iteration history lists of a result have length `n`. -/
def histLens (r : CFResult) (n : ℕ) : Prop :=
  r.Xs.length = n ∧ r.losses.length = n ∧ r.grads.length = n ∧
  r.dists.length = n ∧ r.lambdas.length = n ∧ r.prob_cond.length = n ∧
  r.prob.length = n ∧ r.classes.length = n

lemma innerStep_lens {σ : Type} {p : CFParams σ} {predict_class_fn : List ℚ → ℚ}
    {X : List ℚ} {s s' : LoopState σ}
    (h : innerStep p predict_class_fn X s = some s') {n : ℕ}
    (hn : histLens s.res n) : histLens s'.res (n + 1) := by
  rcases Option.map_eq_some'.mp h with ⟨lg, _, rfl⟩
  obtain ⟨h1, h2, h3, h4, h5, h6, h7, h8⟩ := hn
  exact ⟨by simp [h1], by simp [h2], by simp [h3], by simp [h4],
         by simp [h5], by simp [h6], by simp [h7], by simp [h8]⟩

lemma innerLoop_lens {σ : Type} (p : CFParams σ) (predict_class_fn : List ℚ → ℚ)
    (X : List ℚ) :
    ∀ (m : ℕ) (s s' : LoopState σ),
      innerLoop p predict_class_fn X m s = some s' →
      ∀ n, histLens s.res n → histLens s'.res (n + m) := by
  intro m
  induction m with
  | zero =>
      intro s s' h n hn
      simp only [innerLoop, Option.some.injEq] at h
      rw [← h]
      simpa using hn
  | succ k ih =>
      intro s s' h n hn
      rw [innerLoop] at h
      rcases Option.bind_eq_some.mp h with ⟨s1, h1, h2⟩
      have hstep := innerStep_lens h1 hn
      have hrest := ih s1 s' h2 (n + 1) hstep
      have harith : n + 1 + k = n + (k + 1) := by omega
      rwa [harith] at hrest

lemma histLens_set_X_cf {r : CFResult} {v : List ℚ} {n : ℕ}
    (h : histLens r n) : histLens { r with X_cf := v } n := by
  obtain ⟨h1, h2, h3, h4, h5, h6, h7, h8⟩ := h
  exact ⟨h1, h2, h3, h4, h5, h6, h7, h8⟩

lemma outerLoop_lens {σ : Type} (p : CFParams σ) (predict_class_fn : List ℚ → ℚ)
    (X : List ℚ) :
    ∀ (r lam_steps : ℕ) (s : LoopState σ) (res : CFResult) (tfs : TFState σ),
      lam_steps + r = p.max_lam_steps →
      histLens s.res (lam_steps * p.max_iter) →
      outerLoop p predict_class_fn X r lam_steps s = some (res, tfs) →
      histLens res (p.max_lam_steps * p.max_iter) := by
  intro r
  induction r with
  | zero =>
      intro lam_steps s res tfs hinv hlen h
      simp only [outerLoop, Option.some.injEq, Prod.mk.injEq] at h
      rw [← h.1]
      have hls : lam_steps = p.max_lam_steps := by omega
      rw [hls] at hlen
      obtain ⟨h1, h2, h3, h4, h5, h6, h7, h8⟩ := hlen
      exact ⟨h1, h2, h3, h4, h5, h6, h7, h8⟩
  | succ k ih =>
      intro lam_steps s res tfs hinv hlen h
      rw [outerLoop] at h
      rw [if_neg (by omega)] at h
      rcases Option.bind_eq_some.mp h with ⟨s1, h1, h2⟩
      have hinner := innerLoop_lens p predict_class_fn X p.max_iter s s1 h1
        (lam_steps * p.max_iter) hlen
      have harith : lam_steps * p.max_iter + p.max_iter
          = (lam_steps + 1) * p.max_iter := by ring
      rw [harith] at hinner
      exact ih (lam_steps + 1)
        { s1 with res := { s1.res with X_cf := s1.X_current },
                  lam := s1.lam * p.lam_step }
        res tfs (by omega) (histLens_set_X_cf hinner) h2

/-- C7: whenever `_minimize_wachter_loss` returns, every history list of the
result — candidate snapshots, losses, gradients, distances, lambdas,
tolerance flags, probabilities, predicted classes — has length exactly
`max_lam_steps * max_iter`: every outer step runs the inner loop for its
full fixed `max_iter` count (never cut short by the tolerance), and each
inner iteration appends exactly one entry to each list. -/
theorem minimize_history_lengths {σ : Type} (p : CFParams σ)
    (predict_class_fn : List ℚ → ℚ) (X X_init : List ℚ) (tf0 : TFState σ)
    (res : CFResult) (tfs : TFState σ)
    (h : _minimize_wachter_loss p predict_class_fn X X_init tf0 = some (res, tfs)) :
    res.Xs.length = p.max_lam_steps * p.max_iter ∧
    res.losses.length = p.max_lam_steps * p.max_iter ∧
    res.grads.length = p.max_lam_steps * p.max_iter ∧
    res.dists.length = p.max_lam_steps * p.max_iter ∧
    res.lambdas.length = p.max_lam_steps * p.max_iter ∧
    res.prob_cond.length = p.max_lam_steps * p.max_iter ∧
    res.prob.length = p.max_lam_steps * p.max_iter ∧
    res.classes.length = p.max_lam_steps * p.max_iter :=
  outerLoop_lens p predict_class_fn X p.max_lam_steps 0 _ res tfs (by omega)
    (by simp [histLens]) h

/-! ### A concrete explainer configuration

One feature, a linear two-class prediction, plain gradient descent with
learning rate 1/10 as the (legitimately stateless) optimizer capability, one
outer step and one inner iteration, identity initialization, fixed integer
target-class policy 0, `method='wachter'`, scalar epsilon 1.  The fresh
session leaves the `cf` variable at its variable-initializer value `[0]`,
which differs from the instance `[1]` being explained. -/

/-- Plain gradient-descent optimizer step, learning rate 1/10. -/
def sgdStep : Unit → List ℚ → List ℚ → List ℚ × Unit :=
  fun _ g x => ((x.zip g).map (fun p => p.1 - mkRat 1 10 * p.2), ())

/-- Two-class linear prediction on a one-feature instance. -/
def pfLin : List ℚ → List (List ℚ) := fun x => [[x.headI, 1 - x.headI]]

/-- The concrete explainer configuration. -/
def pLin : CFParams Unit :=
  { predict_fn := pfLin, distance_fn := rowDist, target_proba := 0,
    target_class := Sum.inr 0, max_iter := 1, lam_init := 1,
    lam_step := mkRat 1 1000, max_lam_steps := 1, tol := mkRat 1 100,
    feature_range := (-100, 100), epsilons := some (Sum.inl 1),
    method := "wachter", init := "identity", optStep := sgdStep }

/-- The class-specific scalar prediction function `explain` builds for
`pLin` (class-0 probability, read back from the batch-of-one column). -/
def scalarLin : List ℚ → ℚ :=
  fun x => (((_define_func pfLin 0 (Sum.inr 0)).1 x).getD []).headI

/-- The result dictionary of running `_minimize_wachter_loss` for `pLin` on
the instance `[1]` from a fresh session (`cf = [0]`). -/
def resCF : CFResult :=
  { X_cf := [-1/5], losses := [1], grads := [[2]], dists := [6/5],
    Xs := [[-1/5]], lambdas := [1], prob_cond := [false], prob := [6/5],
    classes := [1], success := true }

/-- C1: the first optimizer step is not applied at the candidate the loss
and gradient were just computed at.  With identity initialization the init
candidate is a copy of the instance `[1]` and the iteration's gradient is
computed there (`get_wachter_grads` at `[1]` gives gradient `[2]`), but
`apply_grad` mutates the session variable `cf`, still holding its
initializer value `[0]`; the recorded candidate after the step is
`[-1/5] = [0] - (1/10)·[2]`, not `[4/5] = [1] - (1/10)·[2]`, which applying
the same step at the init candidate would give. -/
theorem first_step_applied_to_stale_session_variable :
    initializeCandidate pLin [0] [1] = some [1]
    ∧ (get_wachter_grads [1] scalarLin rowDist [1] 0 1 (some (Sum.inl 1))
        "wachter").map Prod.snd = some [2]
    ∧ ((_minimize_wachter_loss pLin scalarLin [1] [1] ⟨[0], ()⟩).map
        (fun r => r.1.Xs)) = some [[-1/5]]
    ∧ (sgdStep () [2] [1]).1 = [4/5]
    ∧ ¬ (([-1/5] : List ℚ) = [4/5]) := by
  refine ⟨?_, ?_, ?_, ?_, ?_⟩ <;> with_unfolding_all decide

/-- C4: a run that exhausts its single outer step with the tolerance
condition never satisfied (`prob_cond = [false]`) still returns
`success = true`: the caller cannot learn of non-convergence from the
success flag. -/
theorem minimize_reports_success_despite_no_tolerance_hit :
    ((_minimize_wachter_loss pLin scalarLin [1] [1] ⟨[0], ()⟩).map
        (fun r => (r.1.prob_cond, r.1.success))) = some ([false], true) := by
  with_unfolding_all decide

/-- Witness for C5: the concrete run returns exactly `resCF`, whose success
flag is true. -/
theorem minimize_success_always_true_witness : resCF.success = true :=
  minimize_success_always_true pLin scalarLin [1] [1] ⟨[0], ()⟩ resCF ⟨[-1/5], ()⟩
    (by with_unfolding_all decide)

/-- Witness for C7: in the concrete run every history list has length
`max_lam_steps * max_iter = 1`. -/
theorem minimize_history_lengths_witness :
    resCF.Xs.length = pLin.max_lam_steps * pLin.max_iter ∧
    resCF.losses.length = pLin.max_lam_steps * pLin.max_iter ∧
    resCF.grads.length = pLin.max_lam_steps * pLin.max_iter ∧
    resCF.dists.length = pLin.max_lam_steps * pLin.max_iter ∧
    resCF.lambdas.length = pLin.max_lam_steps * pLin.max_iter ∧
    resCF.prob_cond.length = pLin.max_lam_steps * pLin.max_iter ∧
    resCF.prob.length = pLin.max_lam_steps * pLin.max_iter ∧
    resCF.classes.length = pLin.max_lam_steps * pLin.max_iter :=
  minimize_history_lengths pLin scalarLin [1] [1] ⟨[0], ()⟩ resCF ⟨[-1/5], ()⟩
    (by with_unfolding_all decide)

/-- The first `explain` call on a fresh session, and a second call on the
session state the first one leaves behind. -/
def explainRun1 : Option (CFResult × TFState Unit) := explain pLin [0] [1] ⟨[0], ()⟩

/-- The second consecutive `explain` call on the same explainer. -/
def explainRun2 : Option (CFResult × TFState Unit) :=
  explainRun1.bind (fun r => explain pLin [0] [1] r.2)

/-- C6: two consecutive `explain` calls on the same explainer with identity
initialization and identical configuration and instance return different
results: the session variable `cf` and optimizer state persist across calls
(they are initialized once, in `__init__`), so the second call starts the
descent from the first call's final candidate `[-1/5]` instead of a fresh
state and ends at `[-2/5]`. -/
theorem explain_not_idempotent_across_calls :
    (explainRun1.map (fun r => r.1.X_cf)) = some [-1/5]
    ∧ (explainRun1.map (fun r => r.2.cf)) = some [-1/5]
    ∧ (explainRun2.map (fun r => r.1.X_cf)) = some [-2/5]
    ∧ ¬ ((explainRun1.map (fun r => r.1.X_cf))
          = (explainRun2.map (fun r => r.1.X_cf))) := by
  refine ⟨?_, ?_, ?_, ?_⟩ <;> with_unfolding_all decide
